import Mathlib

/-!
Verification development for the recipe-app-api repository: a multi-tenant
recipe catalog with per-user tags, ingredients, recipes, list filtering and
image attachment. The Django views under src/app/recipe/views.py are embedded
directly; the model and serializer layers (core/models.py, recipe/serializers.py),
absent from src, are modelled from the specification where noted.
-/

/-! ## Lexicographic string order (executable, kernel-reducible) -/

/-- Lexicographic comparison of character lists by code point. Used to model
the database collation behind order_by on a name column. -/
def charListLe : List Char → List Char → Bool
  | [], _ => true
  | _ :: _, [] => false
  | a :: as, b :: bs =>
    if a.toNat < b.toNat then true
    else if b.toNat < a.toNat then false
    else charListLe as bs

/-- Lexicographic order on strings via their character data. -/
def strLe (a b : String) : Bool := charListLe a.data b.data

theorem charListLe_trans {as bs cs : List Char} (h1 : charListLe as bs = true)
    (h2 : charListLe bs cs = true) : charListLe as cs = true := by
  induction as generalizing bs cs with
  | nil => rfl
  | cons x xs ih =>
    cases bs with
    | nil => simp [charListLe] at h1
    | cons y ys =>
      cases cs with
      | nil => simp [charListLe] at h2
      | cons z zs =>
        simp only [charListLe] at h1 h2 ⊢
        split at h1
        · rename_i hxy
          have hyz : ¬ z.toNat < y.toNat := by
            intro hzy
            simp only [if_neg (by omega : ¬ y.toNat < z.toNat), if_pos hzy] at h2
            exact Bool.false_ne_true h2
          by_cases hc : y.toNat < z.toNat
          · rw [if_pos (by omega : x.toNat < z.toNat)]
          · have hez : y.toNat = z.toNat := by omega
            rw [if_pos (by omega : x.toNat < z.toNat)]
        · split at h1
          · exact absurd h1 Bool.false_ne_true
          · rename_i hxy hyx
            have hexy : x.toNat = y.toNat := by omega
            split at h2
            · rename_i hyz
              rw [if_pos (by omega : x.toNat < z.toNat)]
            · split at h2
              · exact absurd h2 Bool.false_ne_true
              · rename_i hyz hzy
                rw [if_neg (by omega : ¬ x.toNat < z.toNat),
                    if_neg (by omega : ¬ z.toNat < x.toNat)]
                exact ih h1 h2

theorem strLe_trans {a b c : String} (h1 : strLe a b = true)
    (h2 : strLe b c = true) : strLe a c = true :=
  charListLe_trans h1 h2

theorem charListLe_total (as bs : List Char) :
    charListLe as bs = true ∨ charListLe bs as = true := by
  induction as generalizing bs with
  | nil => left; rfl
  | cons x xs ih =>
    cases bs with
    | nil => right; rfl
    | cons y ys =>
      by_cases h1 : x.toNat < y.toNat
      · left; simp [charListLe, h1]
      · by_cases h2 : y.toNat < x.toNat
        · right; simp [charListLe, h1, h2]
        · have := ih ys
          simp [charListLe, h1, h2]
          exact this

theorem strLe_total (a b : String) : strLe a b = true ∨ strLe b a = true :=
  charListLe_total a.data b.data

/-! ## Data model

Modelled from the spec (section 3, DATA MODEL): core/models.py is absent from
src; its Tag, Ingredient and Recipe models are reconstructed from the spec and
from their use in the tests (Tag.objects.create(user=..., name=...), etc.).
Users are identified by their numeric id. -/

/-- Modelled from the spec: a Tag or Ingredient row, shape {id, user_id, name}
per spec section 3; both models have the same columns, so one row type serves
for both tables. -/
structure Entity where
  id : Nat
  user : Nat
  name : String
deriving DecidableEq, Repr

/-- Tag rows (spec section 3). -/
abbrev Tag := Entity

/-- Ingredient rows (spec section 3). -/
abbrev Ingredient := Entity

/-- Modelled from the spec: a Recipe row (spec section 3) with scalar fields,
an optional stored-image reference, and many-to-many association id sets to
Tag and Ingredient rows. The price decimal is held in minor units as a Nat
(spec demands price at least 0), and time_minutes likewise. -/
structure Recipe where
  id : Nat
  user : Nat
  title : String
  time_minutes : Nat
  price : Nat
  link : String
  description : String
  image : Option String
  tags : List Nat
  ingredients : List Nat
deriving DecidableEq, Repr

/-- The persistent store: the three tables plus the auto-increment counters
for primary keys. -/
structure DB where
  tags : List Entity
  ingredients : List Entity
  recipes : List Recipe
  nextTagId : Nat
  nextIngredientId : Nat
  nextRecipeId : Nat
deriving DecidableEq, Repr

/-! ## Descending sorts used by the views -/

/-- Descending-by-name relation on Tag and Ingredient rows: a comes before b
when the name of b is at most the name of a. Models order_by applied
with a minus-name argument. -/
def entNameGe (a b : Entity) : Prop := strLe b.name a.name = true

instance : DecidableRel entNameGe := fun a b => instDecidableEqBool (strLe b.name a.name) true

instance : IsTotal Entity entNameGe :=
  ⟨fun a b => (strLe_total b.name a.name).elim Or.inl Or.inr⟩

instance : IsTrans Entity entNameGe :=
  ⟨fun _ _ _ h1 h2 => strLe_trans h2 h1⟩

/-- Descending-by-id relation on Recipe rows: models order_by applied with a
minus-id argument. -/
def recipeIdGe (a b : Recipe) : Prop := b.id ≤ a.id

instance : DecidableRel recipeIdGe := fun a b => Nat.decLe b.id a.id

instance : IsTotal Recipe recipeIdGe := ⟨fun a b => (Nat.le_total b.id a.id).elim Or.inl Or.inr⟩

instance : IsTrans Recipe recipeIdGe := ⟨fun _ _ _ h1 h2 => Nat.le_trans h2 h1⟩

/-- Sort Tag or Ingredient rows by name descending (insertion sort: stable,
ties keep insertion order). -/
def sortByNameDesc (l : List Entity) : List Entity := List.insertionSort entNameGe l

/-- Sort Recipe rows by id descending. -/
def sortByIdDesc (l : List Recipe) : List Recipe := List.insertionSort recipeIdGe l

theorem mem_sortByNameDesc {a : Entity} {l : List Entity} :
    a ∈ sortByNameDesc l ↔ a ∈ l :=
  (List.perm_insertionSort entNameGe l).mem_iff

theorem sorted_sortByNameDesc (l : List Entity) :
    List.Sorted entNameGe (sortByNameDesc l) :=
  List.sorted_insertionSort entNameGe l

theorem mem_sortByIdDesc {a : Recipe} {l : List Recipe} :
    a ∈ sortByIdDesc l ↔ a ∈ l :=
  (List.perm_insertionSort recipeIdGe l).mem_iff

theorem sorted_sortByIdDesc (l : List Recipe) :
    List.Sorted recipeIdGe (sortByIdDesc l) :=
  List.sorted_insertionSort recipeIdGe l

/-! ## Get-or-create and name resolution

Modelled from the spec: recipe/serializers.py is absent from src; its
reconciliation helpers (get_or_create per tag or ingredient name, then
association via the many-to-many add) are reconstructed from spec sections
4.1 and 4.2 and from the tests in src/app/recipe/test/test_recipe_api.py. -/

/-- Row predicate for the scoped exact-name lookup of get_or_create:
owner and name must both match (case-sensitive, spec section 4.1). -/
def entMatches (u : Nat) (n : String) (e : Entity) : Bool :=
  e.user == u && e.name == n

/-- Modelled from the spec: get_or_create on a Tag or Ingredient table held as
a row list plus auto-increment counter. Returns the first existing row whose
owner and name match, or appends a fresh row with the next id. -/
def entGetOrCreate (rows : List Entity) (next u : Nat) (n : String) :
    Entity × List Entity × Nat :=
  match rows.find? (entMatches u n) with
  | some e => (e, rows, next)
  | none => (⟨next, u, n⟩, rows ++ [⟨next, u, n⟩], next + 1)

/-- Many-to-many add: associating an id already present is a no-op
(set semantics of the Django m2m add). -/
def addAssoc (ids : List Nat) (i : Nat) : List Nat :=
  if i ∈ ids then ids else ids ++ [i]

/-- Modelled from the spec: resolve a list of names against a Tag or
Ingredient table, get-or-create per name in order, accumulating the
association id set. Returns the id set, the new table and counter. -/
def entResolve (rows : List Entity) (next u : Nat) :
    List String → List Nat → List Nat × List Entity × Nat
  | [], acc => (acc, rows, next)
  | n :: ns, acc =>
    entResolve (entGetOrCreate rows next u n).2.1 (entGetOrCreate rows next u n).2.2
      u ns (addAssoc acc (entGetOrCreate rows next u n).1.id)

/-- Get-or-create a Tag row for a user (spec section 4.1). -/
def get_or_create_tag (db : DB) (u : Nat) (n : String) : Entity × DB :=
  ((entGetOrCreate db.tags db.nextTagId u n).1,
   { db with tags := (entGetOrCreate db.tags db.nextTagId u n).2.1,
             nextTagId := (entGetOrCreate db.tags db.nextTagId u n).2.2 })

/-- Get-or-create an Ingredient row for a user (spec section 4.1). -/
def get_or_create_ingredient (db : DB) (u : Nat) (n : String) : Entity × DB :=
  ((entGetOrCreate db.ingredients db.nextIngredientId u n).1,
   { db with ingredients := (entGetOrCreate db.ingredients db.nextIngredientId u n).2.1,
             nextIngredientId := (entGetOrCreate db.ingredients db.nextIngredientId u n).2.2 })

/-- Resolve tag names to an association id set for a user, creating missing
Tag rows (spec section 4.2 steps 3 and the update tags branch). -/
def resolveTagNames (db : DB) (u : Nat) (names : List String) : List Nat × DB :=
  ((entResolve db.tags db.nextTagId u names []).1,
   { db with tags := (entResolve db.tags db.nextTagId u names []).2.1,
             nextTagId := (entResolve db.tags db.nextTagId u names []).2.2 })

/-- Resolve ingredient names to an association id set for a user, creating
missing Ingredient rows (spec section 4.2). -/
def resolveIngredientNames (db : DB) (u : Nat) (names : List String) : List Nat × DB :=
  ((entResolve db.ingredients db.nextIngredientId u names []).1,
   { db with ingredients := (entResolve db.ingredients db.nextIngredientId u names []).2.1,
             nextIngredientId := (entResolve db.ingredients db.nextIngredientId u names []).2.2 })

/-! ## Views (embedded from src/app/recipe/views.py) -/

/-- An authenticated request: the requesting user id and the optional
query parameters carried in the URL (tags and ingredients id lists as sent
by the filtering tests). -/
structure Request where
  user : Nat
  tags_param : Option (List Nat) := none
  ingredients_param : Option (List Nat) := none
deriving DecidableEq, Repr

/-- DRF view actions. The patch constructor stands for the DRF detail
update action invoked by the HTTP PATCH verb. -/
inductive ViewAction
  | list
  | retrieve
  | create
  | update
  | patch
  | destroy
deriving DecidableEq, Repr

/-- The two serializer classes named in views.py. -/
inductive SerializerClass
  | RecipeSerializer
  | RecipeDetailSerializer
deriving DecidableEq, Repr

namespace RecipeViewSet

/-- From src/app/recipe/views.py lines 16-18: the queryset is all Recipe rows
filtered to the authenticated request user and ordered by id descending.
The query parameters carried by the request are not consulted. -/
def get_queryset (db : DB) (request : Request) : List Recipe :=
  sortByIdDesc (db.recipes.filter (fun r => r.user == request.user))

/-- DRF object lookup for detail routes: the row with the given pk inside
get_queryset; a missing row or an ownership mismatch is a 404. -/
def get_object (db : DB) (request : Request) (rid : Nat) : Option Recipe :=
  (get_queryset db request).find? (fun r => r.id == rid)

/-- From src/app/recipe/views.py lines 20-25: the list action uses
RecipeSerializer, every other action the detail serializer. -/
def get_serializer_class (a : ViewAction) : SerializerClass :=
  if a = ViewAction.list then SerializerClass.RecipeSerializer
  else SerializerClass.RecipeDetailSerializer

end RecipeViewSet

/-- Payload of a recipe create request (spec section 6 POST body). The
user_field component models a user id a client may also place in the JSON
body; the serializer fields exclude it, so it is never consulted. -/
structure CreatePayload where
  title : String
  time_minutes : Nat
  price : Nat
  link : String := ""
  description : String := ""
  tags : Option (List String) := none
  ingredients : Option (List String) := none
  user_field : Option Nat := none
deriving DecidableEq, Repr

/-- Serializer create modelled from the spec (section 4.2 create) combined
with perform_create from src/app/recipe/views.py lines 27-29: the call
serializer.save with user equal to self.request.user forces the owner of the
new Recipe row to the authenticated request user; user_field is ignored. -/
def perform_create (db : DB) (request : Request) (p : CreatePayload) : Recipe × DB :=
  let tg := resolveTagNames db request.user (p.tags.getD [])
  let ig := resolveIngredientNames tg.2 request.user (p.ingredients.getD [])
  let r : Recipe :=
    { id := ig.2.nextRecipeId, user := request.user, title := p.title,
      time_minutes := p.time_minutes, price := p.price, link := p.link,
      description := p.description, image := none,
      tags := tg.1, ingredients := ig.1 }
  (r, { ig.2 with recipes := ig.2.recipes ++ [r], nextRecipeId := ig.2.nextRecipeId + 1 })

/-- Payload of a PATCH recipe request: every component optional, absent
components untouched (spec section 4.2 update). -/
structure PatchPayload where
  title : Option String := none
  time_minutes : Option Nat := none
  price : Option Nat := none
  link : Option String := none
  description : Option String := none
  tags : Option (List String) := none
  ingredients : Option (List String) := none
deriving DecidableEq, Repr

/-- Apply the scalar components of a PATCH payload; absent ones keep the
stored value (spec section 4.2 update). -/
def setScalars (r : Recipe) (p : PatchPayload) : Recipe :=
  { r with
    title := p.title.getD r.title
    time_minutes := p.time_minutes.getD r.time_minutes
    price := p.price.getD r.price
    link := p.link.getD r.link
    description := p.description.getD r.description }

/-- Tags branch of the PATCH reconciliation: an absent tags key keeps the
stored association set; a present one (empty included) is resolved wholesale
from scratch (spec section 4.2 update). -/
def resolveTagField (db : DB) (u : Nat) (old : List Nat) :
    Option (List String) → List Nat × DB
  | none => (old, db)
  | some names => resolveTagNames db u names

/-- Ingredient branch of the PATCH reconciliation, identical semantics. -/
def resolveIngredientField (db : DB) (u : Nat) (old : List Nat) :
    Option (List String) → List Nat × DB
  | none => (old, db)
  | some names => resolveIngredientNames db u names

/-- Error taxonomy surfaced to transport (spec section 7). -/
inductive ApiError
  | notFound
  | badRequest
deriving DecidableEq, Repr

/-- Modelled from the spec: the serializer update run by the PATCH detail
route (spec section 4.2 update; serializers.py absent from src). Looks the
recipe up through the scoped queryset (404 when absent or not owned), applies
present scalar components, replaces each association set wholesale when its
key is present, and writes the row back. -/
def recipe_update (db : DB) (request : Request) (rid : Nat) (p : PatchPayload) :
    Except ApiError (Recipe × DB) :=
  match RecipeViewSet.get_object db request rid with
  | none => Except.error ApiError.notFound
  | some r =>
    let tg := resolveTagField db request.user r.tags p.tags
    let ig := resolveIngredientField tg.2 request.user r.ingredients p.ingredients
    let r2 := { setScalars r p with tags := tg.1, ingredients := ig.1 }
    Except.ok (r2, { ig.2 with recipes := ig.2.recipes.map (fun x => if x.id == r.id then r2 else x) })

/-! ## Tag and Ingredient endpoints -/

namespace TagViewSet

/-- From src/app/recipe/views.py lines 32-41: the tag list route, queryset
filtered to the authenticated user and ordered by name descending. -/
def tag_list (db : DB) (u : Nat) : List Entity :=
  sortByNameDesc (db.tags.filter (fun t => t.user == u))

/-- From src/app/recipe/views.py line 32: TagViewSet extends GenericViewSet
with ListModelMixin only, so the router exposes exactly the list action; no
detail route (retrieve, update or destroy) exists for tags. -/
def actions : List ViewAction := [ViewAction.list]

end TagViewSet

/-- Modelled from the spec: the ingredient list route (the Ingredient viewset
is absent from src; the tests reverse recipe:ingredient-list). Per spec
sections 4.1 and 6 it mirrors the tag list: scoped to the caller and ordered
by name descending. -/
def ingredient_list (db : DB) (u : Nat) : List Entity :=
  sortByNameDesc (db.ingredients.filter (fun i => i.user == u))

/-- Requests a client can address to a Tag or Ingredient endpoint:
the list route, or PATCH rename / DELETE against a detail id. -/
inductive EntityRequest
  | listAll (u : Nat)
  | patchName (u eid : Nat) (newName : String)
  | deleteRow (u eid : Nat)
deriving DecidableEq, Repr

/-- Responses of the Tag and Ingredient endpoints. -/
inductive EndpointResponse
  | okList (rows : List Entity)
  | okRow (row : Entity)
  | noContent
  | notFound
deriving DecidableEq, Repr

/-- Dispatch for the tag endpoint as routed from src/app/recipe/views.py
line 32: TagViewSet provides only the list action (ListModelMixin), so the
router registers no tag detail URL and a PATCH or DELETE against one matches
no route: the response is a 404 and the store is untouched. -/
def tagEndpoint (db : DB) : EntityRequest → EndpointResponse × DB
  | EntityRequest.listAll u => (EndpointResponse.okList (TagViewSet.tag_list db u), db)
  | EntityRequest.patchName _ _ _ => (EndpointResponse.notFound, db)
  | EntityRequest.deleteRow _ _ => (EndpointResponse.notFound, db)

/-- Modelled from the spec: the ingredient endpoint (viewset absent from src;
the tests at src/app/recipe/test/test_ingredients_api.py exercise list, PATCH
rename and DELETE through recipe:ingredient-detail). Per spec sections 4.1
and 6: scoped lookup, 404 when the row is absent or not owned by the caller;
PATCH applies the new name; DELETE removes the row and drops the association
from any Recipe referencing it. -/
def ingredientEndpoint (db : DB) : EntityRequest → EndpointResponse × DB
  | EntityRequest.listAll u => (EndpointResponse.okList (ingredient_list db u), db)
  | EntityRequest.patchName u eid newName =>
    match db.ingredients.find? (fun i => i.id == eid && i.user == u) with
    | none => (EndpointResponse.notFound, db)
    | some i0 =>
      (EndpointResponse.okRow { i0 with name := newName },
       { db with ingredients := (db.ingredients.map
           (fun j => if j.id == eid && j.user == u then { j with name := newName } else j)) })
  | EntityRequest.deleteRow u eid =>
    match db.ingredients.find? (fun i => i.id == eid && i.user == u) with
    | none => (EndpointResponse.notFound, db)
    | some _ =>
      (EndpointResponse.noContent,
       { db with ingredients := db.ingredients.filter (fun i => !(i.id == eid && i.user == u)),
                 recipes := (db.recipes.map
                   (fun r => { r with ingredients := r.ingredients.filter (fun x => !(x == eid)) })) })

/-! ## Image attachment -/

/-- Responses of the image upload route. -/
inductive UploadResponse
  | ok (image : String)
  | badRequest
  | notFound
deriving DecidableEq, Repr

/-- Modelled from the spec: format sniffing of the uploaded bytes (spec
section 4.4 demands a decodable image, detected from content rather than a
claimed content type). The payload is decodable when it opens with the JPEG
or PNG magic bytes. -/
def isDecodableImage : List Nat → Bool
  | 255 :: 216 :: 255 :: _ => true
  | 137 :: 80 :: 78 :: 71 :: _ => true
  | _ => false

/-- Modelled from the spec: the image upload route (spec section 4.4; the
upload action and its serializer are absent from src, the tests reverse
recipe:recipe-upload-image). Scoped recipe lookup (404 when absent or not
owned); an undecodable payload is a validation failure that changes nothing;
on success the image reference becomes a name derived from the recipe id. -/
def upload_image (db : DB) (request : Request) (rid : Nat) (payload : List Nat) :
    UploadResponse × DB :=
  match RecipeViewSet.get_object db request rid with
  | none => (UploadResponse.notFound, db)
  | some r =>
    if isDecodableImage payload then
      (UploadResponse.ok ("uploads-recipe-" ++ toString r.id),
       { db with recipes := (db.recipes.map
           (fun x => if x.id == r.id then { x with image := some ("uploads-recipe-" ++ toString r.id) } else x)) })
    else (UploadResponse.badRequest, db)

/-! ## Serializer representations

Modelled from the spec: recipe/serializers.py is absent from src. Spec
section 6 fixes the split: the summary representation omits description,
the detail representation includes it and the image URL; all other fields
agree. -/

/-- Modelled from the spec: field names of the summary serializer used by
the list action. -/
def RecipeSerializerFields : List String :=
  ["id", "title", "time_minutes", "price", "link", "tags", "ingredients"]

/-- Modelled from the spec: field names of the detail serializer, the summary
fields plus description and the image reference. -/
def RecipeDetailSerializerFields : List String :=
  RecipeSerializerFields ++ ["description", "image"]

/-- Summary representation of a Recipe (list action). -/
structure RecipeSummaryRepr where
  id : Nat
  title : String
  time_minutes : Nat
  price : Nat
  link : String
  tags : List Nat
  ingredients : List Nat
deriving DecidableEq, Repr

/-- Detail representation of a Recipe (all other actions). -/
structure RecipeDetailRepr where
  id : Nat
  title : String
  time_minutes : Nat
  price : Nat
  link : String
  tags : List Nat
  ingredients : List Nat
  description : String
  image : Option String
deriving DecidableEq, Repr

/-- Serialize a Recipe for the list action. -/
def serializeSummary (r : Recipe) : RecipeSummaryRepr :=
  ⟨r.id, r.title, r.time_minutes, r.price, r.link, r.tags, r.ingredients⟩

/-- Serialize a Recipe for the detail actions. -/
def serializeDetail (r : Recipe) : RecipeDetailRepr :=
  ⟨r.id, r.title, r.time_minutes, r.price, r.link, r.tags, r.ingredients, r.description, r.image⟩

/-! ## Lemmas: get-or-create -/

theorem entMatches_iff {u : Nat} {n : String} {e : Entity} :
    entMatches u n e = true ↔ e.user = u ∧ e.name = n := by
  simp [entMatches]

theorem entGetOrCreate_user (rows : List Entity) (next u : Nat) (n : String) :
    (entGetOrCreate rows next u n).1.user = u := by
  unfold entGetOrCreate
  cases h : rows.find? (entMatches u n) with
  | none => rfl
  | some e => exact (entMatches_iff.mp (List.find?_some h)).1

theorem entGetOrCreate_name (rows : List Entity) (next u : Nat) (n : String) :
    (entGetOrCreate rows next u n).1.name = n := by
  unfold entGetOrCreate
  cases h : rows.find? (entMatches u n) with
  | none => rfl
  | some e => exact (entMatches_iff.mp (List.find?_some h)).2

theorem entGetOrCreate_mem (rows : List Entity) (next u : Nat) (n : String) :
    (entGetOrCreate rows next u n).1 ∈ (entGetOrCreate rows next u n).2.1 := by
  unfold entGetOrCreate
  cases h : rows.find? (entMatches u n) with
  | none => simp
  | some e => exact List.mem_of_find?_eq_some h

theorem entGetOrCreate_sub {rows : List Entity} {next u : Nat} {n : String} {e : Entity}
    (he : e ∈ rows) : e ∈ (entGetOrCreate rows next u n).2.1 := by
  unfold entGetOrCreate
  cases h : rows.find? (entMatches u n) with
  | none => simp [he]
  | some e1 => exact he

theorem entGetOrCreate_new {rows : List Entity} {next u : Nat} {n : String} {e : Entity}
    (he : e ∈ (entGetOrCreate rows next u n).2.1) :
    e ∈ rows ∨ (e.id = next ∧ e.user = u ∧ e.name = n) := by
  unfold entGetOrCreate at he
  cases h : rows.find? (entMatches u n) with
  | none =>
    rw [h] at he
    simp at he
    rcases he with he | he
    · exact Or.inl he
    · subst he; exact Or.inr ⟨rfl, rfl, rfl⟩
  | some e1 =>
    rw [h] at he
    exact Or.inl he

theorem entGetOrCreate_found {rows : List Entity} {next u : Nat} {n : String}
    (hex : ∃ e ∈ rows, entMatches u n e = true) :
    (entGetOrCreate rows next u n).1 ∈ rows ∧
    (entGetOrCreate rows next u n).2.1 = rows ∧
    (entGetOrCreate rows next u n).2.2 = next := by
  unfold entGetOrCreate
  cases h : rows.find? (entMatches u n) with
  | none =>
    rcases hex with ⟨e, he, hm⟩
    exact absurd hm (List.find?_eq_none.mp h e he)
  | some e => exact ⟨List.mem_of_find?_eq_some h, rfl, rfl⟩

theorem entGetOrCreate_count {rows : List Entity} {next u : Nat} {n : String}
    {u' : Nat} {n' : String}
    (hex : ∃ e ∈ rows, entMatches u' n' e = true) :
    ((entGetOrCreate rows next u n).2.1.filter (entMatches u' n')).length =
      (rows.filter (entMatches u' n')).length := by
  unfold entGetOrCreate
  cases h : rows.find? (entMatches u n) with
  | some e => rfl
  | none =>
    simp only [List.filter_append]
    have hnm : entMatches u' n' ⟨next, u, n⟩ = false := by
      by_contra hc
      have ht : entMatches u' n' ⟨next, u, n⟩ = true := by
        cases hb : entMatches u' n' ⟨next, u, n⟩
        · exact absurd hb hc
        · rfl
      have := entMatches_iff.mp ht
      rcases hex with ⟨e, he, hm⟩
      have hun : e.user = u ∧ e.name = n := by
        have h2 := entMatches_iff.mp hm
        exact ⟨by rw [h2.1, ← this.1], by rw [h2.2, ← this.2]⟩
      exact absurd (entMatches_iff.mpr hun) (List.find?_eq_none.mp h e he)
    simp [List.filter, hnm]

theorem entGetOrCreate_idem (rows : List Entity) (next u : Nat) (n : String) :
    entGetOrCreate (entGetOrCreate rows next u n).2.1 (entGetOrCreate rows next u n).2.2 u n =
      entGetOrCreate rows next u n := by
  unfold entGetOrCreate
  cases h : rows.find? (entMatches u n) with
  | some e => simp [h]
  | none =>
    have hfind : (rows ++ [(⟨next, u, n⟩ : Entity)]).find? (entMatches u n) =
        some ⟨next, u, n⟩ := by
      rw [List.find?_append, h]
      simp [entMatches]
    simp [hfind]

/-- Wellformedness of a Tag or Ingredient table: primary keys are distinct and
below the auto-increment counter. -/
def EntWF (rows : List Entity) (next : Nat) : Prop :=
  (rows.map Entity.id).Nodup ∧ ∀ e ∈ rows, e.id < next

instance (rows : List Entity) (next : Nat) : Decidable (EntWF rows next) := by
  unfold EntWF; infer_instance

theorem entGetOrCreate_wf {rows : List Entity} {next u : Nat} {n : String}
    (h : EntWF rows next) :
    EntWF (entGetOrCreate rows next u n).2.1 (entGetOrCreate rows next u n).2.2 := by
  unfold entGetOrCreate
  cases hf : rows.find? (entMatches u n) with
  | some e => exact h
  | none =>
    constructor
    · simp only [List.map_append, List.map_cons, List.map_nil]
      rw [List.nodup_append]
      refine ⟨h.1, List.nodup_singleton _, ?_⟩
      intro x hx
      simp only [List.mem_singleton]
      intro hx1
      rcases List.mem_map.mp hx with ⟨e, he, hei⟩
      have := h.2 e he
      omega
    · intro e he
      simp only [List.mem_append, List.mem_singleton] at he
      rcases he with he | he
      · exact Nat.lt_succ_of_lt (h.2 e he)
      · subst he; exact Nat.lt_succ_self next

/-! ## Lemmas: name resolution -/

theorem mem_addAssoc {ids : List Nat} {i j : Nat} :
    i ∈ addAssoc ids j ↔ i ∈ ids ∨ i = j := by
  unfold addAssoc
  split
  · rename_i hj
    constructor
    · exact Or.inl
    · rintro (h | rfl)
      · exact h
      · exact hj
  · simp

theorem addAssoc_sub {ids : List Nat} {i j : Nat} (h : i ∈ ids) : i ∈ addAssoc ids j :=
  mem_addAssoc.mpr (Or.inl h)

theorem addAssoc_self {ids : List Nat} {j : Nat} : j ∈ addAssoc ids j :=
  mem_addAssoc.mpr (Or.inr rfl)

theorem entResolve_sub {u : Nat} {ns : List String} :
    ∀ {rows : List Entity} {next : Nat} {acc : List Nat} {e : Entity},
      e ∈ rows → e ∈ (entResolve rows next u ns acc).2.1 := by
  induction ns with
  | nil => intro rows next acc e he; exact he
  | cons n ns ih =>
    intro rows next acc e he
    simp only [entResolve]
    exact ih (entGetOrCreate_sub he)

theorem entResolve_acc_sub {u : Nat} {ns : List String} :
    ∀ {rows : List Entity} {next : Nat} {acc : List Nat} {i : Nat},
      i ∈ acc → i ∈ (entResolve rows next u ns acc).1 := by
  induction ns with
  | nil => intro rows next acc i hi; exact hi
  | cons n ns ih =>
    intro rows next acc i hi
    simp only [entResolve]
    exact ih (addAssoc_sub hi)

theorem entResolve_covers {u : Nat} {ns : List String} :
    ∀ {rows : List Entity} {next : Nat} {acc : List Nat}, ∀ n ∈ ns,
      ∃ e, e ∈ (entResolve rows next u ns acc).2.1 ∧ e.user = u ∧ e.name = n ∧
        e.id ∈ (entResolve rows next u ns acc).1 := by
  induction ns with
  | nil => intro rows next acc n hn; exact absurd hn (List.not_mem_nil n)
  | cons m ns ih =>
    intro rows next acc n hn
    simp only [entResolve]
    rcases List.mem_cons.mp hn with rfl | hn
    · refine ⟨(entGetOrCreate rows next u n).1,
        entResolve_sub (entGetOrCreate_mem rows next u n),
        entGetOrCreate_user rows next u n,
        entGetOrCreate_name rows next u n,
        entResolve_acc_sub addAssoc_self⟩
    · exact ih n hn

theorem entResolve_ids_sourced {u : Nat} {ns : List String} :
    ∀ {rows : List Entity} {next : Nat} {acc : List Nat},
      ∀ i ∈ (entResolve rows next u ns acc).1,
        i ∈ acc ∨ ∃ e, e ∈ (entResolve rows next u ns acc).2.1 ∧ e.id = i ∧
          e.user = u ∧ e.name ∈ ns := by
  induction ns with
  | nil => intro rows next acc i hi; exact Or.inl hi
  | cons m ns ih =>
    intro rows next acc i hi
    simp only [entResolve] at hi ⊢
    rcases ih i hi with hacc | ⟨e, he, hid, hu, hn⟩
    · rcases mem_addAssoc.mp hacc with h | rfl
      · exact Or.inl h
      · refine Or.inr ⟨(entGetOrCreate rows next u m).1,
          entResolve_sub (entGetOrCreate_mem rows next u m), rfl,
          entGetOrCreate_user rows next u m, ?_⟩
        rw [entGetOrCreate_name rows next u m]
        exact List.mem_cons_self m ns
    · exact Or.inr ⟨e, he, hid, hu, List.mem_cons_of_mem m hn⟩

theorem entResolve_wf {u : Nat} {ns : List String} :
    ∀ {rows : List Entity} {next : Nat} {acc : List Nat},
      EntWF rows next →
      EntWF (entResolve rows next u ns acc).2.1 (entResolve rows next u ns acc).2.2 := by
  induction ns with
  | nil => intro rows next acc h; exact h
  | cons m ns ih =>
    intro rows next acc h
    simp only [entResolve]
    exact ih (entGetOrCreate_wf h)

theorem entResolve_count {u' u : Nat} {n' : String} {ns : List String} :
    ∀ {rows : List Entity} {next : Nat} {acc : List Nat},
      (∃ e ∈ rows, entMatches u' n' e = true) →
      ((entResolve rows next u ns acc).2.1.filter (entMatches u' n')).length =
        (rows.filter (entMatches u' n')).length := by
  induction ns with
  | nil => intro rows next acc _; rfl
  | cons m ns ih =>
    intro rows next acc hex
    simp only [entResolve]
    have hex1 : ∃ e ∈ (entGetOrCreate rows next u m).2.1, entMatches u' n' e = true := by
      rcases hex with ⟨e, he, hm⟩
      exact ⟨e, entGetOrCreate_sub he, hm⟩
    rw [ih hex1]
    exact entGetOrCreate_count hex

theorem entResolve_reuse {u : Nat} {n0 : String} {ns : List String} :
    ∀ {rows : List Entity} {next : Nat} {acc : List Nat},
      (∃ e ∈ rows, entMatches u n0 e = true) → n0 ∈ ns →
      ∃ e, e ∈ rows ∧ entMatches u n0 e = true ∧
        e.id ∈ (entResolve rows next u ns acc).1 := by
  induction ns with
  | nil => intro rows next acc _ h; exact absurd h (List.not_mem_nil n0)
  | cons m ns ih =>
    intro rows next acc hex hmem
    simp only [entResolve]
    rcases List.mem_cons.mp hmem with rfl | hmem
    · rcases @entGetOrCreate_found rows next u n0 hex with ⟨hm, hrows, hnext⟩
      refine ⟨(entGetOrCreate rows next u n0).1, hm, ?_, entResolve_acc_sub addAssoc_self⟩
      exact entMatches_iff.mpr ⟨entGetOrCreate_user rows next u n0,
        entGetOrCreate_name rows next u n0⟩
    · have hex1 : ∃ e ∈ (entGetOrCreate rows next u m).2.1, entMatches u n0 e = true := by
        rcases hex with ⟨e, he, hm⟩
        exact ⟨e, entGetOrCreate_sub he, hm⟩
      rcases ih hex1 hmem with ⟨e, he, hm, hid⟩
      by_cases hm2 : ∃ e2 ∈ rows, entMatches u m e2 = true
      · rcases @entGetOrCreate_found rows next u m hm2 with ⟨_, hrows, _⟩
        rw [hrows] at he
        exact ⟨e, he, hm, hid⟩
      · have hnone : rows.find? (entMatches u m) = none := by
          refine List.find?_eq_none.mpr ?_
          intro x hx hpx
          exact hm2 ⟨x, hx, hpx⟩
        unfold entGetOrCreate at he
        rw [hnone] at he
        simp only [List.mem_append, List.mem_singleton] at he
        rcases he with he | he
        · exact ⟨e, he, hm, hid⟩
        · exfalso
          subst he
          have h2 := entMatches_iff.mp hm
          apply hm2
          rcases hex with ⟨e1, he1, hm1⟩
          have h3 := entMatches_iff.mp hm1
          refine ⟨e1, he1, entMatches_iff.mpr ⟨h3.1, ?_⟩⟩
          rw [h3.2, ← h2.2]

/-! ## Frame lemmas: each resolution touches only its own table -/

theorem resolveTagField_ingredients (db : DB) (u : Nat) (old : List Nat)
    (o : Option (List String)) : (resolveTagField db u old o).2.ingredients = db.ingredients := by
  cases o <;> rfl

theorem resolveTagField_recipes (db : DB) (u : Nat) (old : List Nat)
    (o : Option (List String)) : (resolveTagField db u old o).2.recipes = db.recipes := by
  cases o <;> rfl

theorem resolveIngredientField_tags (db : DB) (u : Nat) (old : List Nat)
    (o : Option (List String)) : (resolveIngredientField db u old o).2.tags = db.tags := by
  cases o <;> rfl

theorem resolveIngredientField_recipes (db : DB) (u : Nat) (old : List Nat)
    (o : Option (List String)) : (resolveIngredientField db u old o).2.recipes = db.recipes := by
  cases o <;> rfl

/-! ## Claim theorems -/

/-- C1. For every recipe owned by a user, a PATCH whose payload carries a tags
key replaces the tag association set wholesale: every name in the new
collection resolves via get-or-create into the new tag set; the new tag set
only holds tags resolved from those names; no Tag row is deleted; and every
old tag whose name is absent from the new collection is dissociated from the
recipe while its row survives. -/
theorem recipe_update_replaces_tagset_wholesale
    (db : DB) (request : Request) (rid : Nat) (p : PatchPayload)
    (r : Recipe) (names : List String)
    (hwf : EntWF db.tags db.nextTagId)
    (hobj : RecipeViewSet.get_object db request rid = some r)
    (hp : p.tags = some names) :
    ∃ r2 db2, recipe_update db request rid p = Except.ok (r2, db2) ∧
      (∀ n ∈ names, ∃ t, t ∈ db2.tags ∧ t.user = request.user ∧ t.name = n ∧ t.id ∈ r2.tags) ∧
      (∀ i ∈ r2.tags, ∃ t, t ∈ db2.tags ∧ t.id = i ∧ t.user = request.user ∧ t.name ∈ names) ∧
      (∀ t ∈ db.tags, t ∈ db2.tags) ∧
      (∀ t ∈ db.tags, t.name ∉ names → t.id ∉ r2.tags) := by
  simp only [recipe_update, hobj, hp, resolveTagField]
  refine ⟨_, _, rfl, ?_, ?_, ?_, ?_⟩
  · intro n hn
    simp only [resolveIngredientField_tags, resolveTagNames]
    rcases entResolve_covers n hn with ⟨t, ht, hu, hname, hid⟩
    exact ⟨t, ht, hu, hname, hid⟩
  · intro i hi
    simp only [resolveIngredientField_tags, resolveTagNames]
    simp only [resolveTagNames] at hi
    rcases entResolve_ids_sourced i hi with h | ⟨t, ht, hid, hu, hname⟩
    · exact absurd h (List.not_mem_nil i)
    · exact ⟨t, ht, hid, hu, hname⟩
  · intro t ht
    simp only [resolveIngredientField_tags, resolveTagNames]
    exact entResolve_sub ht
  · intro t ht hname hid
    simp only [resolveTagNames] at hid
    rcases entResolve_ids_sourced t.id hid with h | ⟨e, he, hid2, hu, hname2⟩
    · exact absurd h (List.not_mem_nil t.id)
    · have hwf2 := @entResolve_wf request.user names db.tags db.nextTagId ([] : List Nat) hwf
      have ht2 : t ∈ (entResolve db.tags db.nextTagId request.user names []).2.1 :=
        entResolve_sub ht
      have : e = t := List.inj_on_of_nodup_map hwf2.1 he ht2 hid2
      subst this
      exact hname hname2

/-- Concrete recipe used by the C1 witness, mirroring the assigned-tag update
test: a recipe holding the Breakfast tag. -/
def recW1 : Recipe := ⟨10, 1, "Sample", 10, 500, "L", "D", none, [1], []⟩

/-- Concrete store for the C1 witness: Breakfast and Lunch tag rows, one
recipe associated with Breakfast. -/
def dbW1 : DB := ⟨[⟨1, 1, "Breakfast"⟩, ⟨2, 1, "Lunch"⟩], [], [recW1], 3, 1, 11⟩

/-- Request of user 1 with no query parameters. -/
def reqW1 : Request := ⟨1, none, none⟩

/-- PATCH payload carrying only tags, the single name Lunch. -/
def payloadW1 : PatchPayload := ⟨none, none, none, none, none, some ["Lunch"], none⟩

/-- Witness for C1 at the concrete store dbW1. -/
theorem recipe_update_replaces_tagset_wholesale_witness :
    (EntWF dbW1.tags dbW1.nextTagId ∧
     RecipeViewSet.get_object dbW1 reqW1 10 = some recW1 ∧
     payloadW1.tags = some ["Lunch"]) ∧
    (∃ r2 db2, recipe_update dbW1 reqW1 10 payloadW1 = Except.ok (r2, db2) ∧
      (∀ n ∈ ["Lunch"], ∃ t, t ∈ db2.tags ∧ t.user = reqW1.user ∧ t.name = n ∧ t.id ∈ r2.tags) ∧
      (∀ i ∈ r2.tags, ∃ t, t ∈ db2.tags ∧ t.id = i ∧ t.user = reqW1.user ∧ t.name ∈ ["Lunch"]) ∧
      (∀ t ∈ dbW1.tags, t ∈ db2.tags) ∧
      (∀ t ∈ dbW1.tags, t.name ∉ ["Lunch"] → t.id ∉ r2.tags)) :=
  ⟨⟨by decide, by decide, rfl⟩,
   recipe_update_replaces_tagset_wholesale dbW1 reqW1 10 payloadW1 recW1 ["Lunch"]
     (by decide) (by decide) rfl⟩

/-- Fixed PATCH payload clearing the tag set: tags present and empty, every
other key absent. -/
def clearTagsPayload : PatchPayload := ⟨none, none, none, none, none, some [], none⟩

/-- C3. A PATCH with tags equal to the empty collection leaves the recipe with
zero tag associations, deletes no Tag row (every tag row survives and is still
listable by its owner), and changes no other field of the recipe. -/
theorem recipe_update_clear_tags_frame
    (db : DB) (request : Request) (rid : Nat) (r : Recipe)
    (hobj : RecipeViewSet.get_object db request rid = some r) :
    ∃ r2 db2, recipe_update db request rid clearTagsPayload = Except.ok (r2, db2) ∧
      r2.tags = [] ∧
      r2.id = r.id ∧ r2.user = r.user ∧ r2.title = r.title ∧
      r2.time_minutes = r.time_minutes ∧ r2.price = r.price ∧ r2.link = r.link ∧
      r2.description = r.description ∧ r2.image = r.image ∧
      r2.ingredients = r.ingredients ∧
      db2.tags = db.tags ∧ db2.ingredients = db.ingredients ∧
      (∀ t ∈ db.tags, t.user = request.user → t ∈ TagViewSet.tag_list db2 request.user) := by
  simp only [recipe_update, hobj]
  refine ⟨_, _, rfl, rfl, rfl, rfl, rfl, rfl, rfl, rfl, rfl, rfl, rfl, rfl, rfl, ?_⟩
  intro t ht hu
  unfold TagViewSet.tag_list
  refine mem_sortByNameDesc.mpr (List.mem_filter.mpr ⟨ht, ?_⟩)
  simp [hu]

/-- Concrete recipe for the C3 witness: associated with the Breakfast tag. -/
def recW3 : Recipe := ⟨10, 1, "S", 10, 500, "L", "D", none, [1], []⟩

/-- Concrete store for the C3 witness. -/
def dbW3 : DB := ⟨[⟨1, 1, "Breakfast"⟩], [], [recW3], 2, 1, 11⟩

/-- Request of user 1 for the C3 witness. -/
def reqW3 : Request := ⟨1, none, none⟩

/-- Witness for C3 at the concrete store dbW3. -/
theorem recipe_update_clear_tags_frame_witness :
    (RecipeViewSet.get_object dbW3 reqW3 10 = some recW3) ∧
    (∃ r2 db2, recipe_update dbW3 reqW3 10 clearTagsPayload = Except.ok (r2, db2) ∧
      r2.tags = [] ∧
      r2.id = recW3.id ∧ r2.user = recW3.user ∧ r2.title = recW3.title ∧
      r2.time_minutes = recW3.time_minutes ∧ r2.price = recW3.price ∧ r2.link = recW3.link ∧
      r2.description = recW3.description ∧ r2.image = recW3.image ∧
      r2.ingredients = recW3.ingredients ∧
      db2.tags = dbW3.tags ∧ db2.ingredients = dbW3.ingredients ∧
      (∀ t ∈ dbW3.tags, t.user = reqW3.user → t ∈ TagViewSet.tag_list db2 reqW3.user)) :=
  ⟨by decide, recipe_update_clear_tags_frame dbW3 reqW3 10 recW3 (by decide)⟩

/-- C2. Get-or-create is idempotent per user for tags and ingredients, and a
recipe create whose tag names include a name already existing for that user
reuses the existing row: the count of matching rows does not grow and the id
of an existing matching row lands in the created association set. -/
theorem get_or_create_idempotent_and_reused_on_create
    (db : DB) (request : Request) (p : CreatePayload) (t0 : Entity)
    (n m : String) (names : List String)
    (ht : t0 ∈ db.tags) (hu : t0.user = request.user) (hn : t0.name = n)
    (hmem : n ∈ names) (hp : p.tags = some names) :
    (get_or_create_tag (get_or_create_tag db request.user m).2 request.user m =
      get_or_create_tag db request.user m) ∧
    (get_or_create_ingredient (get_or_create_ingredient db request.user m).2 request.user m =
      get_or_create_ingredient db request.user m) ∧
    ((perform_create db request p).2.tags.filter (entMatches request.user n)).length =
      (db.tags.filter (entMatches request.user n)).length ∧
    (∃ t, t ∈ db.tags ∧ t.user = request.user ∧ t.name = n ∧
      t.id ∈ (perform_create db request p).1.tags) := by
  have hgd : p.tags.getD [] = names := by rw [hp]; rfl
  have hex : ∃ e ∈ db.tags, entMatches request.user n e = true :=
    ⟨t0, ht, entMatches_iff.mpr ⟨hu, hn⟩⟩
  refine ⟨?_, ?_, ?_, ?_⟩
  · simp only [get_or_create_tag]
    rw [entGetOrCreate_idem]
  · simp only [get_or_create_ingredient]
    rw [entGetOrCreate_idem]
  · simp only [perform_create, hgd, resolveTagNames]
    exact entResolve_count hex
  · simp only [perform_create, hgd, resolveTagNames]
    rcases @entResolve_reuse request.user n names db.tags db.nextTagId ([] : List Nat) hex hmem with
      ⟨t, htm, hm, hid⟩
    have h2 := entMatches_iff.mp hm
    exact ⟨t, htm, h2.1, h2.2, hid⟩

/-- Concrete store for the C2 witness: user 1 already owns an Indian tag,
mirroring the existing-tags create test. -/
def dbW2 : DB := ⟨[⟨1, 1, "Indian"⟩], [], [], 2, 1, 1⟩

/-- Request of user 1 for the C2 witness. -/
def reqW2 : Request := ⟨1, none, none⟩

/-- Create payload for the C2 witness: tag names Vegan and Indian. -/
def payloadW2 : CreatePayload := ⟨"Sample", 10, 550, "", "", some ["Vegan", "Indian"], none, none⟩

/-- Witness for C2 at the concrete store dbW2. -/
theorem get_or_create_idempotent_and_reused_on_create_witness :
    ((⟨1, 1, "Indian"⟩ : Entity) ∈ dbW2.tags ∧
     (⟨1, 1, "Indian"⟩ : Entity).user = reqW2.user ∧
     (⟨1, 1, "Indian"⟩ : Entity).name = "Indian" ∧
     "Indian" ∈ ["Vegan", "Indian"] ∧
     payloadW2.tags = some ["Vegan", "Indian"]) ∧
    ((get_or_create_tag (get_or_create_tag dbW2 reqW2.user "Vegan").2 reqW2.user "Vegan" =
       get_or_create_tag dbW2 reqW2.user "Vegan") ∧
     (get_or_create_ingredient (get_or_create_ingredient dbW2 reqW2.user "Vegan").2 reqW2.user "Vegan" =
       get_or_create_ingredient dbW2 reqW2.user "Vegan") ∧
     ((perform_create dbW2 reqW2 payloadW2).2.tags.filter (entMatches reqW2.user "Indian")).length =
       (dbW2.tags.filter (entMatches reqW2.user "Indian")).length ∧
     (∃ t, t ∈ dbW2.tags ∧ t.user = reqW2.user ∧ t.name = "Indian" ∧
       t.id ∈ (perform_create dbW2 reqW2 payloadW2).1.tags)) :=
  ⟨⟨by decide, by decide, by decide, by decide, rfl⟩,
   get_or_create_idempotent_and_reused_on_create dbW2 reqW2 payloadW2 ⟨1, 1, "Indian"⟩
     "Indian" "Vegan" ["Vegan", "Indian"] (by decide) (by decide) (by decide)
     (by decide) rfl⟩

/-- C10. Every recipe created through the create endpoint is owned by the
authenticated request user, the created row lands in the store, and the
result is independent of any user id the client places in the payload. -/
theorem perform_create_owner_from_request
    (db : DB) (request : Request) (p : CreatePayload) (claimed : Option Nat) :
    (perform_create db request p).1.user = request.user ∧
    (perform_create db request p).1 ∈ (perform_create db request p).2.recipes ∧
    perform_create db request { p with user_field := claimed } = perform_create db request p := by
  refine ⟨rfl, ?_, rfl⟩
  simp [perform_create]

/-- Recipe one of the tag-filter test state: carries the Vegan tag (id 1). -/
def recC4one : Recipe := ⟨1, 1, "Thai vegetable curry", 10, 500, "L", "D", none, [1], []⟩

/-- Recipe two of the tag-filter test state: carries the Vegetarian tag (id 2). -/
def recC4two : Recipe := ⟨2, 1, "Aubergine with tahini", 10, 500, "L", "D", none, [2], []⟩

/-- Recipe three of the tag-filter test state: carries no tag at all. -/
def recC4three : Recipe := ⟨3, 1, "Fish and chips", 10, 500, "L", "D", none, [], []⟩

/-- Store of the tag-filter test: two tags, three recipes of user 1. -/
def dbC4 : DB := ⟨[⟨1, 1, "Vegan"⟩, ⟨2, 1, "Vegetarian"⟩], [], [recC4one, recC4two, recC4three], 3, 1, 4⟩

/-- Request of user 1 carrying the tags query parameter with both tag ids,
as sent by the tag-filter test. -/
def reqC4 : Request := ⟨1, some [1, 2], none⟩

/-- C4. Evaluation of the queryset of views.py at the state of the tag-filter
test: the request asks for tag ids 1 and 2, recipe three carries neither, yet
get_queryset returns all three recipes because it never reads the query
parameters. The test test_filter_recipes_by_tags expects recipe three to be
excluded, so views.py contradicts its own test suite here. -/
theorem get_queryset_ignores_tags_param :
    reqC4.tags_param = some [1, 2] ∧
    recC4three.tags = [] ∧
    recC4three ∈ RecipeViewSet.get_queryset dbC4 reqC4 ∧
    RecipeViewSet.get_queryset dbC4 reqC4 = [recC4three, recC4two, recC4one] := by
  decide

/-- C5. Reads of one user are independent of rows of another user: appending
a tag, ingredient or recipe row owned by a different user changes nothing in
the tag list, ingredient list, recipe queryset or recipe detail lookup of the
requesting user. -/
theorem reads_independent_of_other_users_rows
    (db : DB) (request : Request) (u1 : Nat) (t i : Entity) (r : Recipe)
    (hne : u1 ≠ request.user)
    (ht : t.user = u1) (hi : i.user = u1) (hr : r.user = u1) :
    TagViewSet.tag_list { db with tags := db.tags ++ [t] } request.user =
      TagViewSet.tag_list db request.user ∧
    ingredient_list { db with ingredients := db.ingredients ++ [i] } request.user =
      ingredient_list db request.user ∧
    RecipeViewSet.get_queryset { db with recipes := db.recipes ++ [r] } request =
      RecipeViewSet.get_queryset db request ∧
    (∀ rid, RecipeViewSet.get_object { db with recipes := db.recipes ++ [r] } request rid =
      RecipeViewSet.get_object db request rid) := by
  have hent : ∀ (l : List Entity) (x : Entity), x.user = u1 →
      (l ++ [x]).filter (fun e => e.user == request.user) =
        l.filter (fun e => e.user == request.user) := by
    intro l x hx
    rw [List.filter_append]
    have hb : (x.user == request.user) = false := by
      rw [hx]
      exact beq_eq_false_iff_ne.mpr hne
    simp [List.filter, hb]
  have hrec : (db.recipes ++ [r]).filter (fun e => e.user == request.user) =
      db.recipes.filter (fun e => e.user == request.user) := by
    rw [List.filter_append]
    have hb : (r.user == request.user) = false := by
      rw [hr]
      exact beq_eq_false_iff_ne.mpr hne
    simp [List.filter, hb]
  have hq : RecipeViewSet.get_queryset { db with recipes := db.recipes ++ [r] } request =
      RecipeViewSet.get_queryset db request := by
    unfold RecipeViewSet.get_queryset
    rw [hrec]
  refine ⟨?_, ?_, hq, ?_⟩
  · unfold TagViewSet.tag_list
    rw [hent db.tags t ht]
  · unfold ingredient_list
    rw [hent db.ingredients i hi]
  · intro rid
    unfold RecipeViewSet.get_object
    rw [hq]

/-- Store for the C5 witness: one tag, one ingredient, one recipe per user,
users 1 and 2. -/
def dbW5 : DB := ⟨[⟨1, 1, "Vegan"⟩], [⟨1, 1, "Salt"⟩], [⟨1, 1, "T", 5, 100, "", "", none, [1], [1]⟩], 2, 2, 2⟩

/-- Request of user 1 for the C5 witness. -/
def reqW5 : Request := ⟨1, none, none⟩

/-- Witness for C5: rows of user 2 are invisible to user 1. -/
theorem reads_independent_of_other_users_rows_witness :
    ((2 : Nat) ≠ reqW5.user ∧
     (⟨9, 2, "Vinegar"⟩ : Entity).user = 2 ∧
     (⟨9, 2, "Vinegar"⟩ : Entity).user = 2 ∧
     (⟨9, 2, "X", 5, 100, "", "", none, [], []⟩ : Recipe).user = 2) ∧
    (TagViewSet.tag_list { dbW5 with tags := dbW5.tags ++ [⟨9, 2, "Vinegar"⟩] } reqW5.user =
       TagViewSet.tag_list dbW5 reqW5.user ∧
     ingredient_list { dbW5 with ingredients := dbW5.ingredients ++ [⟨9, 2, "Vinegar"⟩] } reqW5.user =
       ingredient_list dbW5 reqW5.user ∧
     RecipeViewSet.get_queryset { dbW5 with recipes := dbW5.recipes ++ [⟨9, 2, "X", 5, 100, "", "", none, [], []⟩] } reqW5 =
       RecipeViewSet.get_queryset dbW5 reqW5 ∧
     (∀ rid, RecipeViewSet.get_object { dbW5 with recipes := dbW5.recipes ++ [⟨9, 2, "X", 5, 100, "", "", none, [], []⟩] } reqW5 rid =
       RecipeViewSet.get_object dbW5 reqW5 rid)) :=
  ⟨⟨by decide, by decide, by decide, by decide⟩,
   reads_independent_of_other_users_rows dbW5 reqW5 2 ⟨9, 2, "Vinegar"⟩ ⟨9, 2, "Vinegar"⟩
     ⟨9, 2, "X", 5, 100, "", "", none, [], []⟩ (by decide) (by decide) (by decide) (by decide)⟩

/-- Store for C6: user 7 owns tag Kale (id 1) and ingredient Salt (id 1). -/
def dbC6 : DB := ⟨[⟨1, 7, "Kale"⟩], [⟨1, 7, "Salt"⟩], [], 2, 2, 1⟩

/-- C6 counterexample. The claim says a PATCH on a tag owned by the caller
applies the new name and returns success; but TagViewSet carries only
ListModelMixin (views.py line 32), so no tag detail route exists: PATCH and
DELETE on an owned tag answer 404 and change nothing, and the patch and
destroy actions are absent from the viewset. -/
theorem tag_detail_routes_absent_counterexample :
    (⟨1, 7, "Kale"⟩ : Entity) ∈ dbC6.tags ∧
    tagEndpoint dbC6 (EntityRequest.patchName 7 1 "Chicken") = (EndpointResponse.notFound, dbC6) ∧
    tagEndpoint dbC6 (EntityRequest.deleteRow 7 1) = (EndpointResponse.notFound, dbC6) ∧
    ViewAction.patch ∉ TagViewSet.actions ∧
    ViewAction.destroy ∉ TagViewSet.actions := by
  decide

/-- C6 amended. The ingredient endpoint supports scoped update and delete:
PATCH on an owned ingredient applies the new name, DELETE removes the row and
its recipe associations, and both answer 404 when no row with that id is
owned by the caller; the tag endpoint exposes no update or delete at all,
every tag PATCH or DELETE answers 404 unconditionally. -/
theorem scoped_update_delete_ingredients_only
    (db : DB) (u eid : Nat) (nn : String) (i0 : Entity)
    (hfound : db.ingredients.find? (fun i => i.id == eid && i.user == u) = some i0) :
    (ingredientEndpoint db (EntityRequest.patchName u eid nn)).1 =
      EndpointResponse.okRow { i0 with name := nn } ∧
    ({ i0 with name := nn } : Entity) ∈
      (ingredientEndpoint db (EntityRequest.patchName u eid nn)).2.ingredients ∧
    (ingredientEndpoint db (EntityRequest.deleteRow u eid)).1 = EndpointResponse.noContent ∧
    (∀ j ∈ (ingredientEndpoint db (EntityRequest.deleteRow u eid)).2.ingredients,
      ¬(j.id = eid ∧ j.user = u)) ∧
    (∀ r ∈ (ingredientEndpoint db (EntityRequest.deleteRow u eid)).2.recipes,
      eid ∉ r.ingredients) ∧
    (∀ (db2 : DB) (u2 eid2 : Nat) (nn2 : String),
      db2.ingredients.find? (fun i => i.id == eid2 && i.user == u2) = none →
      ingredientEndpoint db2 (EntityRequest.patchName u2 eid2 nn2) = (EndpointResponse.notFound, db2) ∧
      ingredientEndpoint db2 (EntityRequest.deleteRow u2 eid2) = (EndpointResponse.notFound, db2)) ∧
    (∀ (db3 : DB) (u3 tid3 : Nat) (nn3 : String),
      tagEndpoint db3 (EntityRequest.patchName u3 tid3 nn3) = (EndpointResponse.notFound, db3) ∧
      tagEndpoint db3 (EntityRequest.deleteRow u3 tid3) = (EndpointResponse.notFound, db3)) := by
  have hcond : (i0.id == eid && i0.user == u) = true := by
    have h0 := List.find?_some hfound
    simpa using h0
  refine ⟨?_, ?_, ?_, ?_, ?_, ?_, ?_⟩
  · simp [ingredientEndpoint, hfound]
  · simp only [ingredientEndpoint, hfound]
    refine List.mem_map.mpr ⟨i0, List.mem_of_find?_eq_some hfound, ?_⟩
    rw [if_pos hcond]
  · simp [ingredientEndpoint, hfound]
  · simp only [ingredientEndpoint, hfound]
    intro j hj h2
    have := (List.mem_filter.mp hj).2
    rw [h2.1, h2.2] at this
    simp at this
  · simp only [ingredientEndpoint, hfound]
    intro r hr
    rcases List.mem_map.mp hr with ⟨r0, _, hr0⟩
    subst hr0
    intro hmem
    have := (List.mem_filter.mp hmem).2
    simp at this
  · intro db2 u2 eid2 nn2 hnone
    constructor <;> simp [ingredientEndpoint, hnone]
  · intro db3 u3 tid3 nn3
    exact ⟨rfl, rfl⟩

/-- Witness for the amended C6 at the concrete store dbC6: user 7 renames and
deletes the owned ingredient Salt. -/
theorem scoped_update_delete_ingredients_only_witness :
    (dbC6.ingredients.find? (fun i => i.id == 1 && i.user == 7) = some ⟨1, 7, "Salt"⟩) ∧
    ((ingredientEndpoint dbC6 (EntityRequest.patchName 7 1 "Chicken")).1 =
       EndpointResponse.okRow ⟨1, 7, "Chicken"⟩ ∧
     (⟨1, 7, "Chicken"⟩ : Entity) ∈
       (ingredientEndpoint dbC6 (EntityRequest.patchName 7 1 "Chicken")).2.ingredients ∧
     (ingredientEndpoint dbC6 (EntityRequest.deleteRow 7 1)).1 = EndpointResponse.noContent ∧
     (∀ j ∈ (ingredientEndpoint dbC6 (EntityRequest.deleteRow 7 1)).2.ingredients,
       ¬(j.id = 1 ∧ j.user = 7)) ∧
     (∀ r ∈ (ingredientEndpoint dbC6 (EntityRequest.deleteRow 7 1)).2.recipes,
       1 ∉ r.ingredients) ∧
     (∀ (db2 : DB) (u2 eid2 : Nat) (nn2 : String),
       db2.ingredients.find? (fun i => i.id == eid2 && i.user == u2) = none →
       ingredientEndpoint db2 (EntityRequest.patchName u2 eid2 nn2) = (EndpointResponse.notFound, db2) ∧
       ingredientEndpoint db2 (EntityRequest.deleteRow u2 eid2) = (EndpointResponse.notFound, db2)) ∧
     (∀ (db3 : DB) (u3 tid3 : Nat) (nn3 : String),
       tagEndpoint db3 (EntityRequest.patchName u3 tid3 nn3) = (EndpointResponse.notFound, db3) ∧
       tagEndpoint db3 (EntityRequest.deleteRow u3 tid3) = (EndpointResponse.notFound, db3))) :=
  ⟨by decide,
   scoped_update_delete_ingredients_only dbC6 7 1 "Chicken" ⟨1, 7, "Salt"⟩ (by decide)⟩

/-- C7. A PATCH of a binary payload that is not a decodable image onto an
owned recipe answers a validation failure and leaves the store, in particular
every stored image reference, untouched. -/
theorem upload_image_invalid_payload_no_state_change
    (db : DB) (request : Request) (rid : Nat) (payload : List Nat) (r : Recipe)
    (hobj : RecipeViewSet.get_object db request rid = some r)
    (hbad : isDecodableImage payload = false) :
    upload_image db request rid payload = (UploadResponse.badRequest, db) ∧
    (upload_image db request rid payload).2.recipes = db.recipes := by
  constructor <;> simp [upload_image, hobj, hbad]

/-- Recipe of the C7 witness, holding a prior image reference. -/
def recW7 : Recipe := ⟨10, 1, "S", 10, 500, "L", "D", some "prior", [], []⟩

/-- Store of the C7 witness. -/
def dbW7 : DB := ⟨[], [], [recW7], 1, 1, 11⟩

/-- Request of user 1 for the C7 witness. -/
def reqW7 : Request := ⟨1, none, none⟩

/-- Witness for C7: the bytes 110, 111 open with no image magic. -/
theorem upload_image_invalid_payload_no_state_change_witness :
    (RecipeViewSet.get_object dbW7 reqW7 10 = some recW7 ∧
     isDecodableImage [110, 111] = false) ∧
    (upload_image dbW7 reqW7 10 [110, 111] = (UploadResponse.badRequest, dbW7) ∧
     (upload_image dbW7 reqW7 10 [110, 111]).2.recipes = dbW7.recipes) :=
  ⟨⟨by decide, by decide⟩,
   upload_image_invalid_payload_no_state_change dbW7 reqW7 10 [110, 111] recW7
     (by decide) (by decide)⟩

/-- C8. The tag and ingredient list operations return all and only the rows
of the requesting user, ordered by name descending. -/
theorem entity_lists_scoped_ordered_name_desc (db : DB) (u : Nat) :
    (∀ t, t ∈ TagViewSet.tag_list db u ↔ (t ∈ db.tags ∧ t.user = u)) ∧
    (∀ i, i ∈ ingredient_list db u ↔ (i ∈ db.ingredients ∧ i.user = u)) ∧
    List.Sorted (fun a b : Entity => strLe b.name a.name = true) (TagViewSet.tag_list db u) ∧
    List.Sorted (fun a b : Entity => strLe b.name a.name = true) (ingredient_list db u) := by
  refine ⟨?_, ?_, sorted_sortByNameDesc _, sorted_sortByNameDesc _⟩
  · intro t
    unfold TagViewSet.tag_list
    rw [mem_sortByNameDesc, List.mem_filter]
    simp
  · intro i
    unfold ingredient_list
    rw [mem_sortByNameDesc, List.mem_filter]
    simp

/-- C9. The list action serializes with the summary serializer and every other
action with the detail serializer; the summary field set omits description and
the image reference while the detail field set carries both; and on every
recipe the two representations agree on all shared fields while the detail
representation exposes description and image faithfully. -/
theorem serializer_split_summary_detail :
    RecipeViewSet.get_serializer_class ViewAction.list = SerializerClass.RecipeSerializer ∧
    (∀ a : ViewAction, a ≠ ViewAction.list →
      RecipeViewSet.get_serializer_class a = SerializerClass.RecipeDetailSerializer) ∧
    ("description" ∉ RecipeSerializerFields ∧ "image" ∉ RecipeSerializerFields ∧
     "description" ∈ RecipeDetailSerializerFields ∧ "image" ∈ RecipeDetailSerializerFields) ∧
    (∀ r : Recipe, (serializeDetail r).description = r.description ∧
      (serializeDetail r).image = r.image ∧
      (serializeSummary r).id = (serializeDetail r).id ∧
      (serializeSummary r).title = (serializeDetail r).title ∧
      (serializeSummary r).time_minutes = (serializeDetail r).time_minutes ∧
      (serializeSummary r).price = (serializeDetail r).price ∧
      (serializeSummary r).link = (serializeDetail r).link ∧
      (serializeSummary r).tags = (serializeDetail r).tags ∧
      (serializeSummary r).ingredients = (serializeDetail r).ingredients) := by
  refine ⟨rfl, ?_, by decide, ?_⟩
  · intro a h
    cases a <;> first | exact absurd rfl h | rfl
  · intro r
    exact ⟨rfl, rfl, rfl, rfl, rfl, rfl, rfl, rfl, rfl⟩

/-- Witness for C9: the retrieve action is not the list action and selects the
detail serializer. -/
theorem serializer_split_summary_detail_witness :
    ViewAction.retrieve ≠ ViewAction.list ∧
    RecipeViewSet.get_serializer_class ViewAction.retrieve = SerializerClass.RecipeDetailSerializer :=
  ⟨by decide, serializer_split_summary_detail.2.1 ViewAction.retrieve (by decide)⟩
